import Mathlib

/-!
Verification of the normalization and matching engine of the
Farm2bag product-scanner repository.

The development shallowly embeds the Python sources
`grocery_price_scraper/normalizer/product_normalizer.py`,
`grocery_price_scraper/comparator/price_comparator.py` and
`grocery_price_scraper/scrapers/base_scraper.py` into Lean.
Python floats are modelled as rationals, Python dictionaries as
structures with `Option` fields where the code uses `dict.get` with a
default, and Python exceptions as `Except`.  Configuration regular
expressions and the external `rapidfuzz.fuzz.ratio` similarity are
modelled as injected functions, as the specification's design notes
prescribe for re-implementations.
-/

namespace Farm2bag

/-! ### Character and string helpers (models of Python `str` operations) -/

/-- Lower-case every character, modelling Python `str.lower()` for the
ASCII strings that occur in product data. -/
def lowerStr (s : String) : String :=
  String.mk (s.data.map Char.toLower)

/-- Remove leading and trailing whitespace, modelling Python `str.strip()`. -/
def trimStr (s : String) : String :=
  String.mk (((s.data.dropWhile Char.isWhitespace).reverse.dropWhile
    Char.isWhitespace).reverse)

/-- Decide whether the first character list starts the second one. -/
def chPre : List Char → List Char → Bool
  | [], _ => true
  | _ :: _, [] => false
  | a :: as, b :: bs => a == b && chPre as bs

/-- Decide whether the first character list occurs inside the second one. -/
def chSub (needle : List Char) : List Char → Bool
  | [] => chPre needle []
  | c :: t => chPre needle (c :: t) || chSub needle t

/-- Model of the Python substring test `needle in hay`. -/
def strContains (hay needle : String) : Bool :=
  chSub needle.data hay.data

/-- Replace every maximal run of whitespace by a single space, the model of
`re.sub(r'\s+', ' ', s)`. -/
def collapseRun : List Char → List Char
  | [] => []
  | [c] => [if c.isWhitespace then ' ' else c]
  | c :: d :: cs =>
    if c.isWhitespace && d.isWhitespace then collapseRun (d :: cs)
    else (if c.isWhitespace then ' ' else c) :: collapseRun (d :: cs)

/-- Numeric value of a decimal digit character. -/
def digitVal (c : Char) : ℕ := c.toNat - 48

/-- Natural number denoted by a list of decimal digit characters. -/
def natOfDigits (ds : List Char) : ℕ :=
  ds.foldl (fun n c => 10 * n + digitVal c) 0

/-- Fractional value denoted by the digits after a decimal point. -/
def fracOfDigits (ds : List Char) : ℚ :=
  (natOfDigits ds : ℚ) / (10 ^ ds.length)

/-- Split off the leading run of decimal digits. -/
def takeDigits : List Char → List Char × List Char
  | [] => ([], [])
  | c :: cs =>
    if c.isDigit then
      let p := takeDigits cs
      (c :: p.1, p.2)
    else ([], c :: cs)

/-- Model of `re.search(r'\d+\.?\d*', s)` followed by `float(...)`: the first
maximal digit run, optionally followed by a dot and further digits, read as a
non-negative rational; `none` when the text holds no digit. -/
def scanNum : List Char → Option ℚ
  | [] => none
  | c :: cs =>
    if c.isDigit then
      let intPart := takeDigits (c :: cs)
      match intPart.2 with
      | '.' :: rest => some ((natOfDigits intPart.1 : ℚ) + fracOfDigits (takeDigits rest).1)
      | _ => some (natOfDigits intPart.1)
    else scanNum cs

/-! ### `ScraperBase._parse_price` (`scrapers/base_scraper.py`, lines 105-130) -/

/-- Model of `ScraperBase._parse_price`: strip currency symbols, commas and
surrounding whitespace, then extract the first decimal-or-integer numeric
substring; `0.0` when the text is empty or holds no number. -/
def parse_price (s : String) : ℚ :=
  if s = "" then 0
  else
    let cleaned := trimStr (String.mk (s.data.filter
      (fun c => !(c == '₹' || c == '$' || c == ','))))
    match scanNum cleaned.data with
    | some v => v
    | none => 0

/-! ### The normalizer data model (`normalizer/product_normalizer.py`) -/

/-- A Python value sitting in the `price` field of a product dictionary:
either a free-text string or a number. -/
inductive PriceVal where
  | str : String → PriceVal
  | num : ℚ → PriceVal
deriving DecidableEq

/-- Python exceptions that the embedded code can raise. -/
inductive PyErr where
  | attributeError
deriving DecidableEq

/-- One configured size pattern: the outcome of `re.search(pattern, s)` plus
`float(match.group(1))` is injected as `matcher` (with `none` covering both a
failed search and a failed float conversion), together with the entry's
`unit_type` tag and `conversion` factor. -/
structure SizePattern where
  matcher : String → Option ℚ
  unit_type : String
  conversion : ℚ

/-- The normalization rule set from `compare_rules.yml`.  Name-cleaner
regular-expression substitutions are injected as string transformers. -/
structure RuleSet where
  unit_mappings : List (String × String)
  brand_aliases : List (String × List String)
  category_mappings : List (String × String)
  name_cleaners : List (String → String)
  size_patterns : List SizePattern

/-- The rule set with no mappings and no patterns. -/
def emptyRules : RuleSet := ⟨[], [], [], [], []⟩

/-- First value bound to a key in an association list, modelling
`dict.get(key)` under insertion order. -/
def lookupStr (m : List (String × String)) (k : String) : Option String :=
  (m.find? (fun p => p.1 = k)).map (·.2)

/-- A raw product dictionary as consumed by `ProductNormalizer`: `none`
models an absent key, read through `dict.get` with the documented default. -/
structure Product where
  name : Option String
  unit : Option String
  size : Option String
  category : Option String
  brand : Option String
  price : Option PriceVal
deriving DecidableEq

/-- Model of `ProductNormalizer.normalize_name` (lines 67-91). -/
def normalize_name (rules : RuleSet) (name : String) : String :=
  if name = "" then ""
  else
    let n0 := trimStr (lowerStr name)
    let n1 := rules.name_cleaners.foldl (fun s f => f s) n0
    trimStr (String.mk (collapseRun n1.data))

/-- Model of `ProductNormalizer.normalize_brand` (lines 93-113). -/
def normalize_brand (rules : RuleSet) (brand : String) : String :=
  if brand = "" then ""
  else
    let bl := trimStr (lowerStr brand)
    match rules.brand_aliases.find? (fun p => (p.2.map lowerStr).contains bl) with
    | some p => p.1
    | none => bl

/-- Model of `ProductNormalizer.normalize_category` (lines 115-131). -/
def normalize_category (rules : RuleSet) (category : String) : String :=
  if category = "" then "general"
  else
    let cl := trimStr (lowerStr category)
    (lookupStr rules.category_mappings cl).getD cl

/-- Model of the pattern loop inside `ProductNormalizer.extract_size_value`:
the first pattern whose search-and-float succeeds yields the value, scaled by
the conversion factor when the pattern's `unit_type` occurs in the unit. -/
def firstSizeMatch (pats : List SizePattern) (sizeStr unitStr : String) : Option ℚ :=
  match pats with
  | [] => none
  | p :: ps =>
    match p.matcher sizeStr with
    | some v =>
      some (if p.unit_type ≠ "" ∧ strContains (lowerStr unitStr) p.unit_type = true
        then v * p.conversion else v)
    | none => firstSizeMatch ps sizeStr unitStr

/-- Model of `ProductNormalizer.extract_size_value` (lines 159-203). -/
def extract_size_value (rules : RuleSet) (size unitStr : String) : ℚ :=
  if size = "" then 1
  else
    let sizeStr := String.mk ((lowerStr size).data.filter (fun c => !(c == ',')))
    match firstSizeMatch rules.size_patterns sizeStr unitStr with
    | some v => v
    | none =>
      match scanNum sizeStr.data with
      | some v => v
      | none => 1

/-- Model of `ProductNormalizer.normalize_unit_and_size` (lines 133-157). -/
def normalize_unit_and_size (rules : RuleSet) (unitStr size : String) : String × ℚ :=
  let unitStr := if unitStr = "" then "piece" else unitStr
  let size := if size = "" then "1" else size
  let unitLower := trimStr (lowerStr unitStr)
  let nUnit := (lookupStr rules.unit_mappings unitLower).getD unitLower
  (nUnit, extract_size_value rules size unitLower)

/-- Model of `ProductNormalizer.calculate_price_per_unit` (lines 205-224).
When `price` is a string the Python body evaluates `self._parse_price(price)`,
but the `ProductNormalizer` class defines no `_parse_price` method (that
method lives only on `ScraperBase`, from which `ProductNormalizer` does not
inherit), so the interpreter raises `AttributeError`; otherwise the price is
divided by the size, with a `0.0` guard when price or size is zero. -/
def calculate_price_per_unit (price : PriceVal) (_u : String) (size : ℚ) :
    Except PyErr ℚ :=
  match price with
  | .str _ => .error .attributeError
  | .num p => .ok (if p = 0 ∨ size = 0 then 0 else p / size)

/-- A normalized product: the copied original dictionary plus the
`normalized_*` and `price_per_unit` keys added by the normalizer.  The
`price_per_unit` slot holds a `PriceVal` because the batch fallback path
stores the raw `price` value there unchanged. -/
structure NormalizedProduct where
  orig : Product
  normalized_name : String
  normalized_unit : String
  normalized_size : ℚ
  normalized_brand : String
  normalized_category : String
  price_per_unit : PriceVal
deriving DecidableEq

/-- Model of `ProductNormalizer.normalize_product` (lines 29-65). -/
def normalize_product (rules : RuleSet) (p : Product) :
    Except PyErr NormalizedProduct :=
  let nn := normalize_name rules (p.name.getD "")
  let us := normalize_unit_and_size rules (p.unit.getD "") (p.size.getD "")
  let nb := normalize_brand rules (p.brand.getD "")
  let nc := normalize_category rules (p.category.getD "")
  match calculate_price_per_unit (p.price.getD (.num 0)) us.1 us.2 with
  | .error e => .error e
  | .ok ppu =>
    .ok { orig := p, normalized_name := nn, normalized_unit := us.1,
          normalized_size := us.2, normalized_brand := nb,
          normalized_category := nc, price_per_unit := .num ppu }

/-- Model of the `except` branch of `ProductNormalizer.normalize_batch`
(lines 242-251): the original product extended with minimal normalization. -/
def fallback_normalize (p : Product) : NormalizedProduct :=
  { orig := p
    normalized_name := lowerStr (p.name.getD "")
    normalized_unit := p.unit.getD "piece"
    normalized_size := 1
    normalized_brand := lowerStr (p.brand.getD "")
    normalized_category := p.category.getD "general"
    price_per_unit := p.price.getD (.num 0) }

/-- Model of `ProductNormalizer.normalize_batch` (lines 226-254): each product
is normalized independently, and a product whose normalization raises is
appended with the fallback normalization instead of being dropped. -/
def normalize_batch (rules : RuleSet) : List Product → List NormalizedProduct
  | [] => []
  | p :: ps =>
    (match normalize_product rules p with
     | .ok n => n
     | .error _ => fallback_normalize p) :: normalize_batch rules ps

/-! ### The comparator data model (`comparator/price_comparator.py`) -/

/-- A normalized product dictionary as consumed by `PriceComparator`.  The
comparator only reads these keys, each through `dict.get` with the default
shown in the source (`''` for the text keys, `0.0` for the prices), so a
missing key behaves exactly like the default value stored here. -/
structure CompProduct where
  normalized_name : String
  normalized_brand : String
  normalized_category : String
  price : ℚ
  price_per_unit : ℚ
  comparison_site : String
deriving DecidableEq

/-- The comparator configuration read in `PriceComparator.__init__` from
`compare_rules.yml`. -/
structure MatchConfig where
  matching_threshold : ℚ
  weight_name : ℚ
  weight_brand : ℚ
  weight_category : ℚ
  exact_match_bonus : ℚ
deriving DecidableEq

/-- A `match_info` dictionary: the copied candidate plus the four score keys
added in `find_matches` (lines 120-124). -/
structure MatchInfo where
  product : CompProduct
  similarity_score : ℚ
  name_similarity : ℚ
  brand_similarity : ℚ
  category_match : ℚ
deriving DecidableEq

/-- Model of line 105: `fuzz.ratio(target_brand, candidate_brand) if
target_brand and candidate_brand else 0`, with the string similarity
injected as `simf`. -/
def brandSim (simf : String → String → ℚ) (tb cb : String) : ℚ :=
  if tb ≠ "" ∧ cb ≠ "" then simf tb cb else 0

/-- Model of the loop body of `find_matches` (lines 98-125): the similarity
components, the weighted score and the exact-name bonus for one candidate. -/
def scoreCandidate (simf : String → String → ℚ) (cfg : MatchConfig)
    (t c : CompProduct) : MatchInfo :=
  let ns := simf t.normalized_name c.normalized_name
  let bs := brandSim simf t.normalized_brand c.normalized_brand
  let cm : ℚ := if t.normalized_category = c.normalized_category then 100 else 0
  let base := ns * cfg.weight_name + bs * cfg.weight_brand + cm * cfg.weight_category
  let sc := if t.normalized_name = c.normalized_name
    then base + cfg.exact_match_bonus else base
  { product := c, similarity_score := sc, name_similarity := ns,
    brand_similarity := bs, category_match := cm }

/-- Descending score order used by `matches.sort(key=..., reverse=True)`. -/
def scoreDesc (a b : MatchInfo) : Prop :=
  b.similarity_score ≤ a.similarity_score

instance : DecidableRel scoreDesc :=
  fun a b => inferInstanceAs (Decidable (b.similarity_score ≤ a.similarity_score))

instance : IsTotal MatchInfo scoreDesc :=
  ⟨fun a b => le_total b.similarity_score a.similarity_score⟩

instance : IsTrans MatchInfo scoreDesc :=
  ⟨fun _ _ _ h1 h2 => le_trans h2 h1⟩

/-- Model of `PriceComparator.find_matches` (lines 80-130): score every
candidate, keep those reaching the threshold in input order, then sort the
kept candidates by descending score with Python's stable sort. -/
def find_matches (simf : String → String → ℚ) (cfg : MatchConfig)
    (t : CompProduct) (cands : List CompProduct) : List MatchInfo :=
  ((cands.map (scoreCandidate simf cfg t)).filter
    (fun m => decide (cfg.matching_threshold ≤ m.similarity_score))).insertionSort
    scoreDesc

/-- The `price_comparison` sub-dictionary of a comparison result. -/
structure PriceComparison where
  farm2bag_price : ℚ
  competitor_price : ℚ
  absolute_difference : ℚ
  percentage_difference : ℚ
  farm2bag_cheaper : Bool
  price_advantage : String
deriving DecidableEq

/-- The `unit_price_comparison` sub-dictionary of a comparison result. -/
structure UnitPriceComparison where
  farm2bag_price_per_unit : ℚ
  competitor_price_per_unit : ℚ
  per_unit_difference : ℚ
  per_unit_percentage : ℚ
  better_unit_price : String
deriving DecidableEq

/-- A comparison record as returned by `calculate_price_difference`, with the
`all_matches` key that `compare_products` adds afterwards (empty until then). -/
structure ComparisonRecord where
  farm2bag_product : CompProduct
  competitor_product : MatchInfo
  price_comparison : PriceComparison
  unit_price_comparison : UnitPriceComparison
  similarity_score : ℚ
  all_matches : List MatchInfo
deriving DecidableEq

/-- Model of `PriceComparator.calculate_price_difference` (lines 132-176). -/
def calculate_price_difference (f : CompProduct) (m : MatchInfo) :
    ComparisonRecord :=
  let fp := f.price
  let cp := m.product.price
  let fpu := f.price_per_unit
  let cpu := m.product.price_per_unit
  let ad := fp - cp
  let pd := if 0 < cp then ad / cp * 100 else 0
  let pud := fpu - cpu
  let pup := if 0 < cpu then pud / cpu * 100 else 0
  { farm2bag_product := f
    competitor_product := m
    price_comparison :=
      { farm2bag_price := fp, competitor_price := cp,
        absolute_difference := ad, percentage_difference := pd,
        farm2bag_cheaper := decide (ad < 0),
        price_advantage := if ad < 0 then "Farm2bag" else "Competitor" }
    unit_price_comparison :=
      { farm2bag_price_per_unit := fpu, competitor_price_per_unit := cpu,
        per_unit_difference := pud, per_unit_percentage := pup,
        better_unit_price := if pud < 0 then "Farm2bag" else "Competitor" }
    similarity_score := m.similarity_score
    all_matches := [] }

/-- The statistics dictionary of `calculate_statistics`.  The
`farm2bag_cheaper_percentage` and `median_price_difference` keys exist only
in the non-empty branch of the source, hence the `Option`. -/
structure Statistics where
  total_matches : ℕ
  farm2bag_cheaper_count : ℕ
  competitor_cheaper_count : ℕ
  farm2bag_cheaper_percentage : Option ℚ
  average_price_difference_percentage : ℚ
  max_savings_percentage : ℚ
  min_savings_percentage : ℚ
  median_price_difference : Option ℚ
deriving DecidableEq

/-- Model of Python `min(l)` guarded by `if l else 0`. -/
def listMin : List ℚ → ℚ
  | [] => 0
  | x :: xs => xs.foldl min x

/-- Model of Python `max(l)` guarded by `if l else 0`. -/
def listMax : List ℚ → ℚ
  | [] => 0
  | x :: xs => xs.foldl max x

/-- Model of `PriceComparator.calculate_statistics` (lines 178-210). -/
def calculate_statistics (ms : List ComparisonRecord) : Statistics :=
  match ms with
  | [] =>
    { total_matches := 0, farm2bag_cheaper_count := 0,
      competitor_cheaper_count := 0, farm2bag_cheaper_percentage := none,
      average_price_difference_percentage := 0, max_savings_percentage := 0,
      min_savings_percentage := 0, median_price_difference := none }
  | _ :: _ =>
    let pds := ms.map (fun m => m.price_comparison.percentage_difference)
    let cheaper := ms.filter (fun m => m.price_comparison.farm2bag_cheaper)
    { total_matches := ms.length
      farm2bag_cheaper_count := cheaper.length
      competitor_cheaper_count := ms.length - cheaper.length
      farm2bag_cheaper_percentage :=
        some ((cheaper.length : ℚ) / (ms.length : ℚ) * 100)
      average_price_difference_percentage := pds.sum / (pds.length : ℚ)
      max_savings_percentage := listMin pds
      min_savings_percentage := listMax pds
      median_price_difference :=
        some ((pds.insertionSort (· ≤ ·)).getD (pds.length / 2) 0) }

/-- A `no_matches` entry of `compare_products` (lines 67-70). -/
structure NoMatchRecord where
  product : CompProduct
  reason : String
deriving DecidableEq

/-- Model of the flattening loop of `compare_products` (lines 50-54): every
competitor product is tagged with its site and collected into one pool. -/
def flattenCompetitors : List (String × List CompProduct) → List CompProduct
  | [] => []
  | (site, ps) :: rest =>
    ps.map (fun p => { p with comparison_site := site }) ++ flattenCompetitors rest

/-- Model of the per-reference loop of `compare_products` (lines 58-70). -/
def compareLoop (simf : String → String → ℚ) (cfg : MatchConfig)
    (allComp : List CompProduct) :
    List CompProduct → List ComparisonRecord × List NoMatchRecord
  | [] => ([], [])
  | f :: fs =>
    let rest := compareLoop simf cfg allComp fs
    match find_matches simf cfg f allComp with
    | [] => (rest.1, { product := f, reason := "No similar products found" } :: rest.2)
    | m :: ms =>
      ({ calculate_price_difference f m with all_matches := (m :: ms).take 3 }
        :: rest.1, rest.2)

/-- The results dictionary of `compare_products` (the `price_analysis` entry,
produced by the pandas-based `analyze_pricing`, is outside the claims and is
not modelled). -/
structure CompareResults where
  matches' : List ComparisonRecord
  no_matches : List NoMatchRecord
  statistics : Statistics
deriving DecidableEq

/-- Model of `PriceComparator.compare_products` (lines 31-78). -/
def compare_products (simf : String → String → ℚ) (cfg : MatchConfig)
    (farm : List CompProduct) (comps : List (String × List CompProduct)) :
    CompareResults :=
  let allComp := flattenCompetitors comps
  let r := compareLoop simf cfg allComp farm
  { matches' := r.1, no_matches := r.2, statistics := calculate_statistics r.1 }

/-! ### Concrete sample data for evaluations -/

/-- A raw product whose `price` field is a free-text string. -/
def strPriceProduct : Product :=
  { name := some "Organic Tomatoes", unit := some "kg", size := some "1",
    category := some "vegetables", brand := some "farm2bag",
    price := some (.str "₹45.50") }

/-- A raw product missing most keys, with a free-text price. -/
def pIncomplete : Product :=
  { name := some "Incomplete Product", unit := none, size := none,
    category := none, brand := none, price := some (.str "N/A") }

/-- A reference product priced at 45 with per-unit price 45. -/
def farmTomato : CompProduct :=
  { normalized_name := "organic tomatoes", normalized_brand := "farm2bag",
    normalized_category := "vegetables", price := 45, price_per_unit := 45,
    comparison_site := "" }

/-- A competitor candidate priced at 50 with per-unit price 50. -/
def compTomato : CompProduct :=
  { normalized_name := "premium organic tomatoes", normalized_brand := "bigbasket",
    normalized_category := "vegetables", price := 50, price_per_unit := 50,
    comparison_site := "bigbasket" }

/-- `compTomato` wrapped as a scored match. -/
def miTomato : MatchInfo :=
  { product := compTomato, similarity_score := 85, name_similarity := 80,
    brand_similarity := 0, category_match := 100 }

/-- A product with every price zero. -/
def zeroProd : CompProduct :=
  { normalized_name := "z", normalized_brand := "", normalized_category := "general",
    price := 0, price_per_unit := 0, comparison_site := "" }

/-- `zeroProd` wrapped as a scored match. -/
def miZero : MatchInfo :=
  { product := zeroProd, similarity_score := 80, name_similarity := 80,
    brand_similarity := 0, category_match := 100 }

/-- A reference product priced at 100. -/
def ref100 : CompProduct :=
  { normalized_name := "a", normalized_brand := "", normalized_category := "g",
    price := 100, price_per_unit := 100, comparison_site := "" }

/-- A reference product priced at 110. -/
def ref110 : CompProduct :=
  { normalized_name := "a", normalized_brand := "", normalized_category := "g",
    price := 110, price_per_unit := 110, comparison_site := "" }

/-- A candidate match priced at 100. -/
def mi100 : MatchInfo :=
  { product := ref100, similarity_score := 90, name_similarity := 90,
    brand_similarity := 0, category_match := 100 }

/-- A comparison record with percentage difference 0. -/
def recEq : ComparisonRecord := calculate_price_difference ref100 mi100

/-- A comparison record with percentage difference 10. -/
def recTen : ComparisonRecord := calculate_price_difference ref110 mi100

/-- An injected similarity giving full credit on equal strings and none
otherwise. -/
def simfW : String → String → ℚ :=
  fun a b => if a = b then 100 else 0

/-- The comparator configuration of the specification's scenario: threshold
75, weights 0.7 / 0.2 / 0.1, exact-match bonus 10. -/
def cfg75 : MatchConfig :=
  { matching_threshold := 75, weight_name := 7/10, weight_brand := 1/5,
    weight_category := 1/10, exact_match_bonus := 10 }

/-- A candidate sharing `farmTomato`'s exact name, brand and category. -/
def exactTomato : CompProduct :=
  { normalized_name := "organic tomatoes", normalized_brand := "farm2bag",
    normalized_category := "vegetables", price := 48, price_per_unit := 48,
    comparison_site := "" }

/-- An injected similarity realising the exact-bonus scenario: 100 on equal
strings, 95 against the near-miss name, 60 against the brand `brandx`, and 0
otherwise. -/
def simfC5 : String → String → ℚ :=
  fun a b =>
    if a = b then 100
    else if b = "organic tomato" then 95
    else if b = "brandx" then 60
    else 0

/-- A candidate with `farmTomato`'s exact name but the brand `brandx`. -/
def exactDiffBrand : CompProduct :=
  { normalized_name := "organic tomatoes", normalized_brand := "brandx",
    normalized_category := "vegetables", price := 48, price_per_unit := 48,
    comparison_site := "" }

/-- A candidate with `farmTomato`'s exact name and a brand entirely
dissimilar to the reference brand. -/
def exactZeroBrand : CompProduct :=
  { normalized_name := "organic tomatoes", normalized_brand := "aa",
    normalized_category := "vegetables", price := 48, price_per_unit := 48,
    comparison_site := "" }

/-- A candidate whose name scores 95 against the reference, with the
reference's own brand and category. -/
def near95 : CompProduct :=
  { normalized_name := "organic tomato", normalized_brand := "farm2bag",
    normalized_category := "vegetables", price := 50, price_per_unit := 50,
    comparison_site := "" }

/-! ### Stability of the match sort -/

/-- Inserting an element into a list keeps, among the entries of any fixed
score, exactly the original ones in their original order, with the new
element in front when its score is that one. -/
theorem filter_score_orderedInsert (v : ℚ) (a : MatchInfo) (l : List MatchInfo) :
    (l.orderedInsert scoreDesc a).filter (fun m => decide (m.similarity_score = v)) =
      if a.similarity_score = v
      then a :: l.filter (fun m => decide (m.similarity_score = v))
      else l.filter (fun m => decide (m.similarity_score = v)) := by
  induction l with
  | nil =>
    by_cases h : a.similarity_score = v <;> simp [List.orderedInsert, h]
  | cons b t ih =>
    by_cases hr : scoreDesc a b
    · rw [List.orderedInsert, if_pos hr]
      by_cases ha : a.similarity_score = v <;>
        simp [List.filter_cons, ha]
    · rw [List.orderedInsert, if_neg hr]
      by_cases hb : b.similarity_score = v
      · by_cases ha : a.similarity_score = v
        · exact absurd (le_of_eq (hb.trans ha.symm)) hr
        · simp [List.filter_cons, hb, ha, ih]
      · simp [List.filter_cons, hb, ih]

/-- The stable sort of `find_matches` preserves, for every score value, the
input order of the equal-score entries (Python's `list.sort` stability). -/
theorem filter_score_insertionSort (v : ℚ) (l : List MatchInfo) :
    (l.insertionSort scoreDesc).filter (fun m => decide (m.similarity_score = v)) =
      l.filter (fun m => decide (m.similarity_score = v)) := by
  induction l with
  | nil => rfl
  | cons a t ih =>
    rw [List.insertionSort, filter_score_orderedInsert]
    by_cases ha : a.similarity_score = v <;> simp [List.filter_cons, ha, ih]

/-- Candidate scoring ignores the matching threshold. -/
theorem scoreCandidate_threshold (simf : String → String → ℚ)
    (cfg : MatchConfig) (τ : ℚ) (t : CompProduct) :
    scoreCandidate simf { cfg with matching_threshold := τ } t =
      scoreCandidate simf cfg t := rfl

/-! ### Claim theorems -/

/-- C1: the claim says `normalize_product` never raises and always returns a
canonical listing with a finite non-negative per-unit price, in particular
when the price field is a free-text string.  The code violates this: on a
string price, `calculate_price_per_unit` calls `self._parse_price`, a method
`ProductNormalizer` does not define, so Python raises `AttributeError`
instead of returning a listing.  This theorem evaluates the model at such an
input. -/
theorem normalize_string_price_raises :
    normalize_product emptyRules strPriceProduct = .error .attributeError := rfl

/-- C2: the claim says raw ingestion (`ScraperBase._parse_price`) and
normalization (`ProductNormalizer.calculate_price_per_unit` on a string
price) share one parsing implementation producing the same non-negative
float.  The code violates this: the scraper-side parser returns 45.5 on
"₹45.50", while the normalizer-side call raises `AttributeError` because
`ProductNormalizer` has no `_parse_price` method at all. -/
theorem price_parse_sites_diverge :
    parse_price "₹45.50" = 91 / 2 ∧
    calculate_price_per_unit (.str "₹45.50") "kg" 1 = .error .attributeError := by
  refine ⟨?_, rfl⟩
  simp +decide [parse_price, trimStr, scanNum, takeDigits, natOfDigits,
    fracOfDigits, digitVal]
  norm_num

/-- C3 counterexample: on the two records with percentage differences 0 and
10, the reported median is 10 — the upper-middle element of the ascending
sort `[0, 10]` — not the lower-middle element 0 the claim names. -/
theorem median_lower_middle_cex :
    (calculate_statistics [recEq, recTen]).median_price_difference = some 10 ∧
    ([recEq, recTen].map
      (fun m => m.price_comparison.percentage_difference)).insertionSort (· ≤ ·)
      = [0, 10] ∧
    ((10 : ℚ) ≠ 0) := by
  have h1 : recEq.price_comparison.percentage_difference = 0 := by
    norm_num [recEq, calculate_price_difference, ref100, mi100]
  have h2 : recTen.price_comparison.percentage_difference = 10 := by
    norm_num [recTen, calculate_price_difference, ref110, ref100, mi100]
  refine ⟨?_, ?_, by norm_num⟩
  · norm_num [calculate_statistics, h1, h2, List.insertionSort, List.orderedInsert]
  · norm_num [h1, h2, List.insertionSort, List.orderedInsert]

/-- C3 (amended): for every non-empty list of comparison records the reported
median equals the element at index `n / 2` — the upper-middle element for
even length, the middle element for odd length — of the percentage
differences sorted ascending. -/
theorem median_upper_middle (ms : List ComparisonRecord) (h : ms ≠ [])
    (l : List ℚ)
    (hp : l.Perm (ms.map (fun m => m.price_comparison.percentage_difference)))
    (hs : l.Sorted (· ≤ ·)) :
    (calculate_statistics ms).median_price_difference =
      some (l.getD (ms.length / 2) 0) := by
  cases ms with
  | nil => exact absurd rfl h
  | cons m rest =>
    have hsort : ((m :: rest).map
        (fun m => m.price_comparison.percentage_difference)).insertionSort (· ≤ ·)
        = l := by
      refine List.eq_of_perm_of_sorted ?_ ?_ hs
      · exact (List.perm_insertionSort _ _).trans hp.symm
      · exact List.sorted_insertionSort _ _
    simp only [calculate_statistics]
    rw [hsort, List.length_map]

/-- C3 witness: the amended median theorem applied to a singleton record
list with sorted percentage differences `[0]`. -/
theorem median_upper_middle_witness :
    (calculate_statistics [recEq]).median_price_difference = some 0 := by
  have hmap : List.map (fun m => m.price_comparison.percentage_difference) [recEq]
      = [0] := by
    norm_num [recEq, calculate_price_difference, ref100, mi100]
  have h := median_upper_middle [recEq] (List.cons_ne_nil _ _) [0]
    (by rw [hmap]) (by simp)
  simpa using h

/-- C6: `calculate_price_difference` reports the percentage difference by the
formula `(reference - candidate) / candidate * 100` when the candidate price
is positive and exactly 0 when it is 0; with both prices 0 the absolute
difference is 0 and `farm2bag_cheaper` is false; and the per-unit comparison
is computed by the same formulas from the per-unit prices alone,
independently of the nominal-price verdict. -/
theorem diff_formulas (f : CompProduct) (m : MatchInfo) :
    (0 < m.product.price →
      (calculate_price_difference f m).price_comparison.percentage_difference =
        (f.price - m.product.price) / m.product.price * 100) ∧
    (m.product.price = 0 →
      (calculate_price_difference f m).price_comparison.percentage_difference = 0) ∧
    (f.price = 0 → m.product.price = 0 →
      (calculate_price_difference f m).price_comparison.absolute_difference = 0 ∧
      (calculate_price_difference f m).price_comparison.farm2bag_cheaper = false) ∧
    (0 < m.product.price_per_unit →
      (calculate_price_difference f m).unit_price_comparison.per_unit_percentage =
        (f.price_per_unit - m.product.price_per_unit) /
          m.product.price_per_unit * 100) ∧
    (m.product.price_per_unit = 0 →
      (calculate_price_difference f m).unit_price_comparison.per_unit_percentage
        = 0) ∧
    (∀ f₂ m₂, f₂.price_per_unit = f.price_per_unit →
      m₂.product.price_per_unit = m.product.price_per_unit →
      (calculate_price_difference f₂ m₂).unit_price_comparison =
        (calculate_price_difference f m).unit_price_comparison) := by
  refine ⟨?_, ?_, ?_, ?_, ?_, ?_⟩
  · intro h
    simp [calculate_price_difference, h]
  · intro h
    simp [calculate_price_difference, h]
  · intro h1 h2
    simp [calculate_price_difference, h1, h2]
  · intro h
    simp [calculate_price_difference, h]
  · intro h
    simp [calculate_price_difference, h]
  · intro f₂ m₂ h1 h2
    simp [calculate_price_difference, h1, h2]

/-- C6 witness: the price-difference theorem applied to the 45-vs-50 pair
(positive candidate price) and to the all-zero pair. -/
theorem diff_formulas_witness :
    (calculate_price_difference farmTomato miTomato).price_comparison.percentage_difference
      = -10 ∧
    (calculate_price_difference zeroProd miZero).price_comparison.absolute_difference
      = 0 ∧
    (calculate_price_difference zeroProd miZero).price_comparison.farm2bag_cheaper
      = false ∧
    (calculate_price_difference zeroProd miZero).unit_price_comparison.per_unit_percentage
      = 0 := by
  have h1 := (diff_formulas farmTomato miTomato).1 (by norm_num [miTomato, compTomato])
  have h2 := (diff_formulas zeroProd miZero).2.2.1 rfl rfl
  have h3 := (diff_formulas zeroProd miZero).2.2.2.2.1 rfl
  exact ⟨h1.trans (by norm_num [farmTomato, miTomato, compTomato]), h2.1, h2.2, h3⟩

/-- C7 counterexample: the claim says the empty-input statistics object has
every derived percentage field present (and 0); in the code's empty branch
the `farm2bag_cheaper_percentage` and `median_price_difference` keys are
absent. -/
theorem stats_empty_missing_fields_cex :
    (calculate_statistics []).farm2bag_cheaper_percentage = none ∧
    (calculate_statistics []).median_price_difference = none :=
  ⟨rfl, rfl⟩

/-- C7 (amended): `calculate_statistics` on the empty list returns, without
error, the statistics object whose three counts are 0 and whose three
always-present derived fields are 0, while `farm2bag_cheaper_percentage` and
`median_price_difference` are absent from the empty-case object. -/
theorem stats_empty_all_zero :
    calculate_statistics [] =
      { total_matches := 0, farm2bag_cheaper_count := 0,
        competitor_cheaper_count := 0, farm2bag_cheaper_percentage := none,
        average_price_difference_percentage := 0, max_savings_percentage := 0,
        min_savings_percentage := 0, median_price_difference := none } := rfl

/-- C8: `normalize_batch` returns one output per input, in input order, the
i-th output derived from the i-th input — through `normalize_product` when
it succeeds and through the documented fallback defaults when it raises —
and on a product whose `unit` and `category` keys are absent the fallback
fills normalized size 1.0 and the sentinel unit and category. -/
theorem batch_preserves_items (rules : RuleSet) (ps : List Product) :
    (normalize_batch rules ps).length = ps.length ∧
    (∀ i : ℕ, (normalize_batch rules ps)[i]? =
      (ps[i]?).map (fun p =>
        match normalize_product rules p with
        | .ok n => n
        | .error _ => fallback_normalize p)) ∧
    (∀ p : Product, p.unit = none → p.category = none →
      (fallback_normalize p).normalized_size = 1 ∧
      (fallback_normalize p).normalized_unit = "piece" ∧
      (fallback_normalize p).normalized_category = "general") := by
  have heq : normalize_batch rules ps = ps.map (fun p =>
      match normalize_product rules p with
      | .ok n => n
      | .error _ => fallback_normalize p) := by
    induction ps with
    | nil => rfl
    | cons p ps ih => simp [normalize_batch, ih]
  refine ⟨by rw [heq, List.length_map], fun i => by rw [heq, List.getElem?_map],
    fun p h1 h2 => ?_⟩
  simp [fallback_normalize, h1, h2]

/-- C8 witness: the batch theorem applied to a two-product batch whose second
product fails individual normalization and lacks the `unit` and `category`
keys. -/
theorem batch_preserves_items_witness :
    (normalize_batch emptyRules [strPriceProduct, pIncomplete]).length = 2 ∧
    (normalize_batch emptyRules [strPriceProduct, pIncomplete])[1]? =
      some (fallback_normalize pIncomplete) ∧
    (fallback_normalize pIncomplete).normalized_size = 1 ∧
    (fallback_normalize pIncomplete).normalized_unit = "piece" ∧
    (fallback_normalize pIncomplete).normalized_category = "general" := by
  obtain ⟨h1, h2, h3⟩ := batch_preserves_items emptyRules [strPriceProduct, pIncomplete]
  have h4 := h3 pIncomplete rfl rfl
  refine ⟨h1, ?_, h4.1, h4.2.1, h4.2.2⟩
  exact (h2 1).trans rfl

/-- C9: in `compare_products` every reference product contributes exactly one
output record, so the number of matches plus the number of no-match records
equals the number of reference products. -/
theorem compare_partition (simf : String → String → ℚ) (cfg : MatchConfig)
    (farm : List CompProduct) (comps : List (String × List CompProduct)) :
    (compare_products simf cfg farm comps).matches'.length +
      (compare_products simf cfg farm comps).no_matches.length = farm.length := by
  suffices h : ∀ fs : List CompProduct,
      (compareLoop simf cfg (flattenCompetitors comps) fs).1.length +
        (compareLoop simf cfg (flattenCompetitors comps) fs).2.length = fs.length by
    simpa [compare_products] using h farm
  intro fs
  induction fs with
  | nil => rfl
  | cons f fs ih =>
    simp only [compareLoop]
    cases find_matches simf cfg f (flattenCompetitors comps) with
    | nil => simpa using by omega
    | cons m ms => simpa using by omega

/-- C10: on every non-empty record list, the cheaper-side counts partition
the total, and the total equals the length of the input list. -/
theorem stats_counts_partition (ms : List ComparisonRecord) (h : ms ≠ []) :
    (calculate_statistics ms).farm2bag_cheaper_count +
      (calculate_statistics ms).competitor_cheaper_count =
      (calculate_statistics ms).total_matches ∧
    (calculate_statistics ms).total_matches = ms.length := by
  cases ms with
  | nil => exact absurd rfl h
  | cons m rest =>
    refine ⟨?_, rfl⟩
    have hle := List.length_filter_le
      (fun x => x.price_comparison.farm2bag_cheaper) (m :: rest)
    simp only [calculate_statistics]
    omega

/-- C10 witness: the count-partition theorem applied to a singleton record
list. -/
theorem stats_counts_partition_witness :
    (calculate_statistics [recEq]).farm2bag_cheaper_count +
      (calculate_statistics [recEq]).competitor_cheaper_count =
      (calculate_statistics [recEq]).total_matches ∧
    (calculate_statistics [recEq]).total_matches = 1 :=
  stats_counts_partition [recEq] (List.cons_ne_nil _ _)

/-- C4: `find_matches` returns only candidates whose score reaches the
threshold, sorted descending by score with equal scores kept in input order
(the stable-sort tie-break, stated as preservation of the filtered
subsequence at every score value), and raising the threshold shrinks the
result set: every match at a higher threshold is a match at any lower one. -/
theorem find_matches_contract (simf : String → String → ℚ) (cfg : MatchConfig)
    (t : CompProduct) (cands : List CompProduct) :
    (∀ m ∈ find_matches simf cfg t cands,
      cfg.matching_threshold ≤ m.similarity_score) ∧
    (find_matches simf cfg t cands).Sorted scoreDesc ∧
    (∀ v : ℚ, (find_matches simf cfg t cands).filter
        (fun m => decide (m.similarity_score = v)) =
      ((cands.map (scoreCandidate simf cfg t)).filter
        (fun m => decide (cfg.matching_threshold ≤ m.similarity_score))).filter
        (fun m => decide (m.similarity_score = v))) ∧
    (∀ t₁ t₂ : ℚ, t₁ ≤ t₂ → ∀ m,
      m ∈ find_matches simf { cfg with matching_threshold := t₂ } t cands →
      m ∈ find_matches simf { cfg with matching_threshold := t₁ } t cands) := by
  refine ⟨?_, ?_, ?_, ?_⟩
  · intro m hm
    have hm' := (List.mem_insertionSort scoreDesc).1 hm
    exact of_decide_eq_true (List.mem_filter.1 hm').2
  · exact List.sorted_insertionSort scoreDesc _
  · intro v
    exact filter_score_insertionSort v _
  · intro t₁ t₂ hle m hm
    have hm' := (List.mem_insertionSort scoreDesc).1 hm
    rw [List.mem_filter] at hm'
    obtain ⟨hmem, hsc⟩ := hm'
    refine (List.mem_insertionSort scoreDesc).2 (List.mem_filter.2 ⟨?_, ?_⟩)
    · exact hmem
    · exact decide_eq_true (le_trans hle (of_decide_eq_true hsc))

/-- C4 witness: the `find_matches` contract applied to the exact-match
candidate against `farmTomato` under both thresholds 75 and 70. -/
theorem find_matches_contract_witness :
    cfg75.matching_threshold ≤
      (scoreCandidate simfW cfg75 farmTomato exactTomato).similarity_score ∧
    scoreCandidate simfW cfg75 farmTomato exactTomato ∈
      find_matches simfW { cfg75 with matching_threshold := 70 }
        farmTomato [exactTomato] := by
  have hmem : scoreCandidate simfW cfg75 farmTomato exactTomato ∈
      find_matches simfW cfg75 farmTomato [exactTomato] := by
    simp +decide [find_matches, scoreCandidate, brandSim, simfW, farmTomato,
      exactTomato, cfg75, List.filter_cons, List.insertionSort,
      List.orderedInsert]
    norm_num
  exact ⟨(find_matches_contract simfW cfg75 farmTomato [exactTomato]).1 _ hmem,
    (find_matches_contract simfW cfg75 farmTomato [exactTomato]).2.2.2 70 75
      (by norm_num) _ hmem⟩

/-- C5 counterexample: under the scenario configuration, a candidate with the
identical name, a wholly dissimilar brand and the same category scores 90
(not ≥ 100), and `find_matches` ranks the 95-percent-name candidate (score
96.5) above it. -/
theorem exact_name_bonus_cex :
    (scoreCandidate simfC5 cfg75 farmTomato exactZeroBrand).similarity_score = 90 ∧
    (scoreCandidate simfC5 cfg75 farmTomato near95).similarity_score = 193/2 ∧
    ¬ (100 ≤ (scoreCandidate simfC5 cfg75 farmTomato exactZeroBrand).similarity_score) ∧
    (find_matches simfC5 cfg75 farmTomato [exactZeroBrand, near95]).map
      (fun m => m.product.normalized_name) =
      ["organic tomato", "organic tomatoes"] := by
  have hE : (scoreCandidate simfC5 cfg75 farmTomato exactZeroBrand).similarity_score
      = 90 := by
    simp +decide [scoreCandidate, brandSim, simfC5, cfg75, farmTomato,
      exactZeroBrand]
    norm_num
  have hN : (scoreCandidate simfC5 cfg75 farmTomato near95).similarity_score
      = 193/2 := by
    simp +decide [scoreCandidate, brandSim, simfC5, cfg75, farmTomato, near95]
    norm_num
  refine ⟨hE, hN, by rw [hE]; norm_num, ?_⟩
  simp +decide [find_matches, scoreCandidate, brandSim, simfC5, cfg75,
    farmTomato, exactZeroBrand, near95, List.filter_cons, List.insertionSort,
    List.orderedInsert, scoreDesc]
  norm_num [List.orderedInsert, scoreDesc]

/-- C5 (amended): under the scenario configuration, a candidate with the
identical canonical name, a different brand whose brand similarity to the
reference is at least 50, and the same category scores at least 100, and —
provided brand similarities stay within the similarity scale's bound of
100 — scores strictly above every candidate with 95-percent name similarity
and no exact name match. -/
theorem exact_name_bonus_ranking (simf : String → String → ℚ)
    (ref cE cN : CompProduct)
    (hrefName : ref.normalized_name = "organic tomatoes")
    (hEqName : cE.normalized_name = ref.normalized_name)
    (hSelf : simf ref.normalized_name ref.normalized_name = 100)
    (hBrandNe : cE.normalized_brand ≠ ref.normalized_brand)
    (hCatE : cE.normalized_category = ref.normalized_category)
    (hBE : 50 ≤ brandSim simf ref.normalized_brand cE.normalized_brand)
    (h95 : simf ref.normalized_name cN.normalized_name = 95)
    (hNne : cN.normalized_name ≠ ref.normalized_name)
    (hBN : brandSim simf ref.normalized_brand cN.normalized_brand ≤ 100) :
    100 ≤ (scoreCandidate simf cfg75 ref cE).similarity_score ∧
    (scoreCandidate simf cfg75 ref cN).similarity_score <
      (scoreCandidate simf cfg75 ref cE).similarity_score := by
  have e1 : simf ref.normalized_name cE.normalized_name = 100 := by
    rw [hEqName]; exact hSelf
  have hscE : (scoreCandidate simf cfg75 ref cE).similarity_score =
      100 * (7/10) +
        brandSim simf ref.normalized_brand cE.normalized_brand * (1/5) +
        100 * (1/10) + 10 := by
    simp only [scoreCandidate, cfg75]
    rw [if_pos hEqName.symm, e1, if_pos hCatE.symm]
  have hscN : (scoreCandidate simf cfg75 ref cN).similarity_score =
      95 * (7/10) +
        brandSim simf ref.normalized_brand cN.normalized_brand * (1/5) +
        (if ref.normalized_category = cN.normalized_category
          then (100:ℚ) else 0) * (1/10) := by
    simp only [scoreCandidate, cfg75]
    rw [if_neg (fun hh => hNne hh.symm), h95]
  constructor
  · rw [hscE]
    linarith [hBE]
  · rw [hscE, hscN]
    by_cases hc : ref.normalized_category = cN.normalized_category
    · rw [if_pos hc]
      linarith [hBE, hBN]
    · rw [if_neg hc]
      linarith [hBE, hBN]

/-- C5 witness: the amended exact-bonus theorem applied to the concrete
scenario candidates under the injected similarity `simfC5`. -/
theorem exact_name_bonus_ranking_witness :
    100 ≤ (scoreCandidate simfC5 cfg75 farmTomato exactDiffBrand).similarity_score ∧
    (scoreCandidate simfC5 cfg75 farmTomato near95).similarity_score <
      (scoreCandidate simfC5 cfg75 farmTomato exactDiffBrand).similarity_score :=
  exact_name_bonus_ranking simfC5 farmTomato exactDiffBrand near95
    rfl rfl (by decide) (by decide) rfl (by decide) (by decide) (by decide)
    (by decide)

end Farm2bag
